import Mathlib

set_option maxHeartbeats 1600000

/-
Shallow embedding of the preprocessing pipeline engine of `src/app.py`:
the tabular data model, the interactive transformation handlers, and the
replay dispatcher (`_execute_operation` / `load_and_apply_pipeline`).
Machine floats are embedded as exact rationals; external sklearn calls
(KNN imputer, scalers, encoders, discretizer) are black-box oracles, as
the spec treats those libraries as external collaborators.
-/

/-- A cell of the tabular dataset.  `i`/`f` are numeric cells (rationals
stand in for the source's float64 values), `s` is a text cell, `na` is a
missing value (NaN/None). -/
inductive Value where
  | i (n : Int)
  | f (q : ℚ)
  | s (t : String)
  | na
deriving DecidableEq

/-- Column dtypes distinguished by the source.  `select_dtypes(include=np.number)`
treats exactly `int64` and `float64` as numeric. -/
inductive Dtype where
  | int64
  | float64
  | category
  | object
deriving DecidableEq

/-- The in-memory table (`self.df`): ordered named typed columns; each row
carries its pandas index label, which survives row-dropping operations and is
re-compacted only by `reset_index(drop=True)`. -/
structure DataFrame where
  colNames : List String
  colTypes : List Dtype
  rows : List (Nat × List Value)
deriving DecidableEq

namespace DataFrame

/-- Position of a column name, `none` when absent (pandas raises `KeyError`). -/
def colIdx? (df : DataFrame) (c : String) : Option Nat :=
  df.colNames.findIdx? (· = c)

def hasCol (df : DataFrame) (c : String) : Bool :=
  (df.colIdx? c).isSome

/-- Cell of a row at a column position (missing position reads as NaN). -/
def cellAt (r : List Value) (j : Nat) : Value :=
  r.getD j Value.na

/-- The values of column `c` (`self.df[c]`), empty when the column is absent. -/
def col (df : DataFrame) (c : String) : List Value :=
  match df.colIdx? c with
  | some j => df.rows.map (fun r => cellAt r.2 j)
  | none => []

def dtypeOf (df : DataFrame) (c : String) : Option Dtype :=
  (df.colIdx? c).bind (fun j => df.colTypes.get? j)

def isNumericCol (df : DataFrame) (c : String) : Bool :=
  match df.dtypeOf c with
  | some .int64 => true
  | some .float64 => true
  | _ => false

/-- `self.df[sel].select_dtypes(include=np.number).columns.tolist()`:
the numeric columns of a selection, in selection order. -/
def numericSubset (df : DataFrame) (sel : List String) : List String :=
  sel.filter df.isNumericCol

/-- Replace the values (and dtype) of column `c`; when `c` is absent a new
column is appended at the end (`self.df[c] = series`). -/
def setColVals (df : DataFrame) (c : String) (dt : Dtype) (vs : List Value) : DataFrame :=
  match df.colIdx? c with
  | some j =>
    { df with
      colTypes := df.colTypes.set j dt
      rows := (df.rows.zip vs).map (fun p => (p.1.1, p.1.2.set j p.2)) }
  | none =>
    { colNames := df.colNames ++ [c]
      colTypes := df.colTypes ++ [dt]
      rows := (df.rows.zip vs).map (fun p => (p.1.1, p.1.2 ++ [p.2])) }

/-- Transform every cell of column `c` in place, keeping its dtype. -/
def mapCol (df : DataFrame) (c : String) (g : Value → Value) : DataFrame :=
  match df.colIdx? c with
  | some j => { df with rows := df.rows.map (fun r => (r.1, r.2.set j (g (cellAt r.2 j)))) }
  | none => df

/-- Like `mapCol` but also sets the column dtype. -/
def mapColD (df : DataFrame) (c : String) (dt : Dtype) (g : Value → Value) : DataFrame :=
  match df.colIdx? c with
  | some j =>
    { df with
      colTypes := df.colTypes.set j dt
      rows := df.rows.map (fun r => (r.1, r.2.set j (g (cellAt r.2 j)))) }
  | none => df

/-- `df.drop(columns=cs, errors='ignore')`: remove the named columns, keeping
the remaining columns in order (cells are selected by column position). -/
def dropColsIgnore (df : DataFrame) (cs : List String) : DataFrame :=
  { colNames := df.colNames.filter (fun n => !(cs.contains n))
    colTypes := ((df.colNames.zip df.colTypes).filter (fun p => !(cs.contains p.1))).map Prod.snd
    rows := df.rows.map (fun r =>
      (r.1, ((df.colNames.zip r.2).filter (fun p => !(cs.contains p.1))).map Prod.snd)) }

/-- `df.drop(columns=cs)`: pandas raises `KeyError` when any name is absent. -/
def dropCols? (df : DataFrame) (cs : List String) : Option DataFrame :=
  if cs.all df.hasCol then some (df.dropColsIgnore cs) else none

/-- `df.dropna(subset=[c])`: drop the rows whose cell in `c` is missing;
`none` models the `KeyError` on an absent column. -/
def dropna? (df : DataFrame) (c : String) : Option DataFrame :=
  (df.colIdx? c).map (fun j =>
    { df with rows := df.rows.filter (fun r => !(cellAt r.2 j == Value.na)) })

/-- `df.drop(index=labels)` (labels always come from `df` itself in the source). -/
def dropIndexLabels (df : DataFrame) (ls : List Nat) : DataFrame :=
  { df with rows := df.rows.filter (fun r => !(ls.contains r.1)) }

/-- `df.reset_index(drop=True)`: relabel the rows `0, 1, 2, …`. -/
def reset_index (df : DataFrame) : DataFrame :=
  { df with rows := (df.rows.map Prod.snd).enum }

/-- Fill the missing cells of column `c` with `v`, keeping the dtype
(`self.df[c] = self.df[c].fillna(v)` for a type-compatible `v`). -/
def fillnaCol (df : DataFrame) (c : String) (v : Value) : DataFrame :=
  df.mapCol c (fun x => if x == Value.na then v else x)

/-- `fillna` with a value incompatible with the column dtype: pandas upcasts
the column to object dtype (the constant-fill fallback path). -/
def fillnaColObj (df : DataFrame) (c : String) (v : Value) : DataFrame :=
  df.mapColD c Dtype.object (fun x => if x == Value.na then v else x)

/-! Duplicate rows.  `df.duplicated()` flags a row when an earlier row is equal
on all columns (index labels are ignored); `drop_duplicates` keeps the first
occurrence of each row. -/

def dedupFrom (seen : List (List Value)) : List (Nat × List Value) → List (Nat × List Value)
  | [] => []
  | r :: rest =>
    if r.2 ∈ seen then dedupFrom (r.2 :: seen) rest
    else r :: dedupFrom (r.2 :: seen) rest

def countDupsFrom (seen : List (List Value)) : List (Nat × List Value) → Nat
  | [] => 0
  | r :: rest =>
    (if r.2 ∈ seen then 1 else 0) + countDupsFrom (r.2 :: seen) rest

/-- `self.df.duplicated().sum()`. -/
def duplicatedCount (df : DataFrame) : Nat :=
  countDupsFrom [] df.rows

/-- `self.df.drop_duplicates()`. -/
def drop_duplicates (df : DataFrame) : DataFrame :=
  { df with rows := dedupFrom [] df.rows }

/-- Count of missing cells in a column (`df.isnull().sum()` per column). -/
def missingCount (vs : List Value) : Nat :=
  vs.countP (· == Value.na)

end DataFrame

/-! ### Column statistics (pandas semantics: NaN cells are skipped) -/

/-- The numeric content of a cell. -/
def ratOf? : Value → Option ℚ
  | .i n => some (n : ℚ)
  | .f q => some q
  | _ => none

/-- The non-missing numeric values of a column. -/
def numsOf (vs : List Value) : List ℚ :=
  vs.filterMap ratOf?

/-- `Series.mean()`: NaN-skipping mean, `none` (NaN) when no values remain. -/
def meanQ? (vs : List Value) : Option ℚ :=
  let xs := numsOf vs
  if xs.length = 0 then none else some (xs.sum / (xs.length : ℚ))

/-- `Series.quantile(q)` with pandas' default linear interpolation on the
sorted non-missing values; `none` (NaN) on an empty column. -/
def quantileQ? (vs : List Value) (q : ℚ) : Option ℚ :=
  let xs := List.insertionSort (· ≤ ·) (numsOf vs)
  match xs with
  | [] => none
  | _ =>
    let n := xs.length
    let pos : ℚ := q * ((n : ℚ) - 1)
    let j : Nat := (Int.floor pos).toNat
    let lo := xs.getD j 0
    let hi := xs.getD (j + 1) lo
    some (lo + (pos - (j : ℚ)) * (hi - lo))

/-- `Series.median()` is `quantile(0.5)`. -/
def medianQ? (vs : List Value) : Option ℚ :=
  quantileQ? vs (1/2)

/-- Sample variance with pandas' default `ddof = 1`; `none` (NaN std) when
fewer than two values remain. -/
def varQ? (vs : List Value) : Option ℚ :=
  let xs := numsOf vs
  if xs.length ≤ 1 then none
  else
    let μ := xs.sum / (xs.length : ℚ)
    some ((xs.map (fun x => (x - μ) ^ 2)).sum / ((xs.length : ℚ) - 1))

/-- A total order on cell values used only to model how pandas sorts the
candidates returned by `Series.mode()` (it returns them sorted ascending,
so `mode()[0]` is the least most-frequent value). -/
def valueLe : Value → Value → Bool
  | .i a, .i b => a ≤ b
  | .i a, .f b => (a : ℚ) ≤ b
  | .f a, .i b => a ≤ (b : ℚ)
  | .f a, .f b => a ≤ b
  | .s a, .s b => a ≤ b
  | .i _, _ => true
  | .f _, _ => true
  | .s _, _ => false
  | .na, _ => false

/-- `Series.mode()[0]`: the least value of maximal frequency among the
non-missing cells; `none` models the `IndexError` on an empty mode list. -/
def modeQ? (vs : List Value) : Option Value :=
  let cand := (vs.filter (fun v => !(v == Value.na))).dedup
  let best := cand.foldl
    (fun acc v =>
      match acc with
      | none => some v
      | some w =>
        let cv := vs.count v
        let cw := vs.count w
        if cv > cw then some v
        else if cv == cw && valueLe v w && !(v == w) then some v
        else some w)
    none
  best

/-! ### String-to-number coercion (`astype`, constant fill) -/

/-- Integer parse of a text cell (numpy `str → int64` accepts integer
literals only). -/
def parseInt? (s : String) : Option Int :=
  s.toInt?

/-- Decimal parse of a text cell into an exact rational (`str → float64`;
plain decimal literals — the source's inputs come from GUI text fields). -/
def parseRat? (s : String) : Option ℚ :=
  match s.splitOn "." with
  | [a] => (a.toInt?).map (fun n => (n : ℚ))
  | [a, b] =>
    match a.toInt?, b.toNat? with
    | some ia, some nb =>
      let d : ℚ := (10 : ℚ) ^ b.length
      some (if a.startsWith "-" then (ia : ℚ) - (nb : ℚ) / d else (ia : ℚ) + (nb : ℚ) / d)
    | _, _ => none
  | _ => none

/-- Truncation toward zero (numpy `float64 → int64` cast). -/
def truncQ (q : ℚ) : Int :=
  q.num.tdiv q.den

/-- `astype(target)` on one cell; `none` is a conversion failure (raises).
NaN cannot be cast to `int64`; any cell casts to `object`/`category`. -/
def convertValue? (target : String) (v : Value) : Option Value :=
  match target with
  | "int64" =>
    match v with
    | .i n => some (.i n)
    | .f q => some (.i (truncQ q))
    | .s t => (parseInt? t).map .i
    | .na => none
  | "float64" =>
    match v with
    | .i n => some (.f (n : ℚ))
    | .f q => some (.f q)
    | .s t => (parseRat? t).map .f
    | .na => some .na
  | "category" => some v
  | "object" => some v
  | _ => none

def dtypeOfTarget : String → Dtype
  | "int64" => .int64
  | "float64" => .float64
  | "category" => .category
  | _ => .object

/-- `Series.astype(target)`: all cells convert or the whole cast raises —
pandas builds the converted array before assigning, so failure leaves the
column untouched (all-or-nothing). -/
def astypeCol? (target : String) (vs : List Value) : Option (List Value) :=
  vs.mapM (convertValue? target)

/-- `dtype.type(text)`: coerce the constant-fill text to the column dtype. -/
def coerceConst? (dt : Dtype) (s : String) : Option Value :=
  match dt with
  | .int64 => (parseInt? s).map .i
  | .float64 => (parseRat? s).map .f
  | .category => some (.s s)
  | .object => some (.s s)

/-! ### Outlier bounds and masks (`handle_outliers`, src/app.py:1184-1233)

Bounds are computed per column from the current (never capped mid-call)
column values.  The IQR bounds are exact rationals.  The Z-score bounds use
`std = √variance`, which is irrational in general: the embedded Boolean mask
uses the equivalent rational test (proved equivalent to the `μ ± t·σ` bound
comparison over ℝ in the theorems below), and the capped *values* written by
the Cap/Winsorize action come from a black-box oracle, like the other
floating-point library results. -/

/-- IQR bounds `[Q1 − t·IQR, Q3 + t·IQR]`; `none` when the column has no
numeric values (NaN quantiles, which compare false against every cell). -/
def iqrBounds? (vs : List Value) (t : ℚ) : Option (ℚ × ℚ) :=
  match quantileQ? vs (1/4), quantileQ? vs (3/4) with
  | some q1, some q3 => some (q1 - t * (q3 - q1), q3 + t * (q3 - q1))
  | _, _ => none

/-- The Z-score outlier test `x < μ − t·σ ∨ x > μ + t·σ` as a rational
computation: for `t·σ ≥ 0` it is `(x − μ)² > t²·σ²`, and for `t < 0` with
`σ > 0` every `x` passes one of the two strict bounds.  `none` variance
(fewer than two values: NaN std) compares false. -/
def zscoreMask (vs : List Value) (t : ℚ) (x : ℚ) : Bool :=
  match varQ? vs with
  | none => false
  | some v =>
    let μ := (numsOf vs).sum / ((numsOf vs).length : ℚ)
    if t < 0 && 0 < v then true
    else decide ((x - μ) ^ 2 > t ^ 2 * v)

/-- The outlier mask of one cell of column `c`: NaN cells compare false on
both bounds; `method` is matched as in the source (`if method == "IQR" …
else  # Z-score`). -/
def outlierMaskVal (df : DataFrame) (c : String) (method : String) (t : ℚ) (v : Value) : Bool :=
  match ratOf? v with
  | none => false
  | some x =>
    if method = "IQR" then
      match iqrBounds? (df.col c) t with
      | some (lb, ub) => decide (x < lb ∨ x > ub)
      | none => false
    else zscoreMask (df.col c) t x

/-- The index labels of the rows flagged as outliers in column `c`
(`self.df[outlier_mask].index`). -/
def outlierLabels (df : DataFrame) (c : String) (method : String) (t : ℚ) : List Nat :=
  match df.colIdx? c with
  | some j =>
    (df.rows.filter (fun r => outlierMaskVal df c method t (DataFrame.cellAt r.2 j))).map Prod.fst
  | none => []

/-- `total_outlier_indices`: the union (as a label list; only membership
matters to `drop`) of the per-column outlier labels, all computed from the
same uncapped dataframe. -/
def totalOutlierIndices (df : DataFrame) (cols : List String) (method : String) (t : ℚ) : List Nat :=
  cols.foldr (fun c acc => outlierLabels df c method t ++ acc) []

/-! ### Operation Records and pipeline state -/

/-- One serialized Operation Record: the `name` key plus the kind-specific
keys that the source stores in `operation_history` / the pipeline JSON.
Absent keys are `none`. -/
structure Operation where
  name : String
  columns : Option (List String) := none
  column : Option String := none
  method : Option String := none
  target_type : Option String := none
  threshold : Option ℚ := none
  constant_value : Option String := none
  k_value : Option Nat := none
  n_bins : Option Nat := none
  strategy : Option String := none
  action : Option String := none
deriving DecidableEq

/-- The mutable session state the handlers touch: the live dataframe, the
operation history, and the name of the confirmed target column (`self.y`),
which only the TargetEncoder paths consult. -/
structure PState where
  df : DataFrame
  history : List Operation
  target : Option String := none
deriving DecidableEq

/-- Black-box oracles for the external sklearn calls (the spec treats the
numeric libraries as external collaborators).  Each returns `Except` because
the library call can raise (e.g. on NaN input). -/
structure Oracles where
  /-- `KNNImputer(k).fit_transform` written back over the numeric columns. -/
  knn : Nat → List String → DataFrame → Except String DataFrame
  /-- Replay scaling: `scaler.fit_transform(self.df[valid_columns])` written back. -/
  scalerMulti : String → List String → DataFrame → Except String DataFrame
  /-- Interactive scaling: one column's `scaler.fit_transform(...).flatten()`. -/
  scaler1 : String → List Value → Except String (List Value)
  /-- OneHot: the new indicator columns (name, values) for the encoded columns. -/
  oneHotNew : List String → DataFrame → Except String (List (String × List Value))
  /-- OrdinalEncoder: the integer-code values written back over the columns. -/
  ordinalVals : List String → DataFrame → Except String (List (List Value))
  /-- TargetEncoder (target name, feature columns): values written back. -/
  targetEncVals : String → List String → DataFrame → Except String (List (List Value))
  /-- `KBinsDiscretizer(n_bins, 'ordinal', strategy).fit_transform` on one column. -/
  kbins : Nat → String → List Value → Except String (List Int)
  /-- The float64 Z-score cap bounds `(μ − t·σ, μ + t·σ)` for a column
  (irrational in exact arithmetic, hence an oracle). -/
  zscoreBounds : List Value → ℚ → ℚ × ℚ

/-- Write value lists back over a list of existing columns (positional zip). -/
def setColsVals (df : DataFrame) (cs : List String) (dt : Dtype) : List (List Value) → DataFrame :=
  fun vss => (cs.zip vss).foldl (fun d p => d.setColVals p.1 dt p.2) df

/-! ### The replay dispatcher `_execute_operation` (src/app.py:979-1107)

The result pairs the state as mutated so far with `some msg` when a Python
exception escapes the branch (mutations made before the raise are kept,
exactly as with the source's in-place mutation of `self.df` /
`self.operation_history`). -/

/-- One replayed imputation column for the non-KNN methods.  The replay loop
has no numeric-dtype guard (unlike the interactive handler): `mean`/`median`
on a non-numeric column is the pandas `TypeError`, a missing column is a
`KeyError`, a failed constant coercion is uncaught (no `try` in replay), and
an unknown method name matches no branch and does nothing. -/
def imputeColReplay (st : PState) (method : String) (cv : Option String) (c : String) :
    PState × Option String :=
  match method with
  | "Remove Rows with Missing Values" =>
    match st.df.dropna? c with
    | some df' => ({ st with df := df' }, none)
    | none => (st, some "KeyError")
  | "Fill with Mean" =>
    if (st.df.colIdx? c).isSome then
      if st.df.isNumericCol c then
        match meanQ? (st.df.col c) with
        | some m => ({ st with df := st.df.fillnaCol c (.f m) }, none)
        | none => (st, none)
      else (st, some "TypeError")
    else (st, some "KeyError")
  | "Fill with Median" =>
    if (st.df.colIdx? c).isSome then
      if st.df.isNumericCol c then
        match medianQ? (st.df.col c) with
        | some m => ({ st with df := st.df.fillnaCol c (.f m) }, none)
        | none => (st, none)
      else (st, some "TypeError")
    else (st, some "KeyError")
  | "Fill with Mode" =>
    if (st.df.colIdx? c).isSome then
      match modeQ? (st.df.col c) with
      | some m => ({ st with df := st.df.fillnaCol c m }, none)
      | none => (st, some "IndexError")
    else (st, some "KeyError")
  | "Fill with Constant" =>
    match cv with
    | none => (st, some "KeyError")
    | some s =>
      match st.df.dtypeOf c with
      | none => (st, some "KeyError")
      | some dt =>
        match coerceConst? dt s with
        | some v => ({ st with df := st.df.fillnaCol c v }, none)
        | none => (st, some "ValueError")
  | _ => (st, none)

def imputeColsReplay (method : String) (cv : Option String) :
    PState → List String → PState × Option String
  | st, [] => (st, none)
  | st, c :: rest =>
    match imputeColReplay st method cv c with
    | (st', none) => imputeColsReplay method cv st' rest
    | (st', some e) => (st', some e)

/-- The recognized replay kinds (the dispatch chain's `elif` arms). -/
def recognizedKinds : List String :=
  ["remove_duplicates", "apply_imputation", "convert_dtype", "delete_by_threshold",
   "delete_columns", "apply_scaling", "apply_encoding", "apply_binning"]

/-- Columns whose missing percentage strictly exceeds `t`
(`missing_percent[missing_percent > threshold]`, src/app.py:1021-1022 and
1135-1136).  An empty dataframe gives `0/0 = NaN` percentages in pandas,
which compare false against every threshold. -/
def colsToDropByThreshold (df : DataFrame) (t : ℚ) : List String :=
  df.colNames.filter (fun c =>
    decide (0 < df.rows.length) &&
      decide ((DataFrame.missingCount (df.col c) : ℚ) / (df.rows.length : ℚ) * 100 > t))

/-- Replay binning loop: each valid column is discretized inside its own
`try`; a failing column is skipped (`continue`) and the loop goes on. -/
def binLoopReplay (ext : Oracles) (n : Nat) (strat : String) :
    DataFrame → List String → DataFrame
  | df, [] => df
  | df, c :: rest =>
    match ext.kbins n strat (df.col c) with
    | .ok codes => binLoopReplay ext n strat (df.setColVals (c ++ "_binned") .int64 (codes.map .i)) rest
    | .error _ => binLoopReplay ext n strat df rest

/-- Replay arm for `apply_imputation` (src/app.py:987-1014): the KNN branch
runs once (it `break`s out of the column loop); the other methods loop over
the record's columns. -/
def execImputation (ext : Oracles) (st : PState) (op : Operation) : PState × Option String :=
  match op.columns, op.method with
  | some cols, some method =>
    if method = "KNN Imputation" then
      match cols with
      | [] => (st, none)
      | _ :: _ =>
        if cols.all st.df.hasCol then
          match ext.knn (op.k_value.getD 5) (st.df.numericSubset cols) st.df with
          | .ok df' => ({ st with df := df' }, none)
          | .error e => (st, some e)
        else (st, some "KeyError")
    else imputeColsReplay method op.constant_value st cols
  | _, _ => (st, some "KeyError")

/-- Replay arm for `convert_dtype` (src/app.py:1016-1017). -/
def execConvertDtype (st : PState) (op : Operation) : PState × Option String :=
  match op.column, op.target_type with
  | some c, some tt =>
    if (st.df.colIdx? c).isSome then
      match astypeCol? tt (st.df.col c) with
      | some vs => ({ st with df := st.df.setColVals c (dtypeOfTarget tt) vs }, none)
      | none => (st, some "ValueError")
    else (st, some "KeyError")
  | _, _ => (st, some "KeyError")

/-- Replay arm for `delete_by_threshold` (src/app.py:1019-1026): when columns
qualify, the record is re-appended before the drop. -/
def execDeleteByThreshold (st : PState) (op : Operation) : PState × Option String :=
  match op.threshold with
  | none => (st, some "KeyError")
  | some t =>
    let drops := colsToDropByThreshold st.df t
    if drops = [] then (st, none)
    else
      ({ st with
          history := st.history ++ [{ name := "delete_by_threshold", threshold := some t }]
          df := st.df.dropColsIgnore drops }, none)

/-- Replay arm for `delete_columns` (src/app.py:1028-1031): the record is
appended first, so a `KeyError` from the strict drop leaves it in the
history. -/
def execDeleteCols (st : PState) (op : Operation) : PState × Option String :=
  match op.columns with
  | none => (st, some "KeyError")
  | some cs =>
    let st1 : PState := { st with
      history := st.history ++ [{ name := "delete_columns", columns := some cs }] }
    match st1.df.dropCols? cs with
    | some df' => ({ st1 with df := df' }, none)
    | none => (st1, some "KeyError")

/-- Replay arm for `apply_scaling` (src/app.py:1033-1044): missing method or
columns, an unknown scaler name, or no surviving column is a silent return. -/
def execScaling (ext : Oracles) (st : PState) (op : Operation) : PState × Option String :=
  let cols := op.columns.getD []
  match op.method with
  | none => (st, none)
  | some m =>
    if cols = [] then (st, none)
    else if m = "StandardScaler" ∨ m = "MinMaxScaler" ∨ m = "RobustScaler" then
      let valid := cols.filter st.df.hasCol
      if valid = [] then (st, none)
      else
        match ext.scalerMulti m valid st.df with
        | .ok df' => ({ st with df := df' }, none)
        | .error e => (st, some e)
    else (st, none)

/-- Replay arm for `apply_encoding` (src/app.py:1046-1082). -/
def execEncoding (ext : Oracles) (st : PState) (op : Operation) : PState × Option String :=
  let cols := op.columns.getD []
  match op.method with
  | none => (st, none)
  | some m =>
    if cols = [] then (st, none)
    else
      let valid := cols.filter st.df.hasCol
      if valid = [] then (st, none)
      else if m = "OneHotEncoder" then
        match ext.oneHotNew valid st.df with
        | .ok pairs =>
          let base := st.df.dropColsIgnore valid
          ({ st with df := pairs.foldl (fun d p => d.setColVals p.1 .float64 p.2) base }, none)
        | .error e => (st, some e)
      else if m = "OrdinalEncoder" then
        match ext.ordinalVals valid st.df with
        | .ok vss => ({ st with df := setColsVals st.df valid .float64 vss }, none)
        | .error e => (st, some e)
      else if m = "TargetEncoder" then
        match st.target with
        | none => (st, none)
        | some tn =>
          if st.df.hasCol tn then
            let xcols := valid.filter (· ≠ tn)
            if xcols = [] then (st, none)
            else
              match ext.targetEncVals tn xcols st.df with
              | .ok vss => ({ st with df := setColsVals st.df xcols .float64 vss }, none)
              | .error e => (st, some e)
          else (st, none)
      else (st, none)

/-- Replay arm for `apply_binning` (src/app.py:1084-1107): per-column
failures are skipped and all surviving originals are dropped afterward. -/
def execBinning (ext : Oracles) (st : PState) (op : Operation) : PState × Option String :=
  let cols := op.columns.getD []
  let n := op.n_bins.getD 5
  let strat := op.strategy.getD "quantile"
  let valid := cols.filter st.df.hasCol
  if valid = [] then (st, none)
  else
    let df1 := binLoopReplay ext n strat st.df valid
    ({ st with df := df1.dropColsIgnore valid }, none)

/-- Embedding of `_execute_operation` (src/app.py:979): the string-keyed
dispatcher that replays one Operation Record.  A record whose `name` matches
no arm (including `handle_outliers`, which has no arm) falls through the
`elif` chain and does nothing. -/
def execute_operation (ext : Oracles) (st : PState) (op : Operation) : PState × Option String :=
  if op.name = "remove_duplicates" then
    ({ st with df := st.df.drop_duplicates.reset_index }, none)
  else if op.name = "apply_imputation" then execImputation ext st op
  else if op.name = "convert_dtype" then execConvertDtype st op
  else if op.name = "delete_by_threshold" then execDeleteByThreshold st op
  else if op.name = "delete_columns" then execDeleteCols st op
  else if op.name = "apply_scaling" then execScaling ext st op
  else if op.name = "apply_encoding" then execEncoding ext st op
  else if op.name = "apply_binning" then execBinning ext st op
  else (st, none)

/-- The replay loop of `load_and_apply_pipeline` (src/app.py:967-968): the
whole `for` sits inside one `try`, so the first escaping exception halts the
remaining records. -/
def run_operations (ext : Oracles) : PState → List Operation → PState × Option String
  | st, [] => (st, none)
  | st, op :: rest =>
    match execute_operation ext st op with
    | (st', none) => run_operations ext st' rest
    | (st', some e) => (st', some e)

/-- Embedding of `load_and_apply_pipeline` (src/app.py:939) after parsing and
user confirmation: the history is reset to `[]` and the records are replayed. -/
def load_and_apply_pipeline (ext : Oracles) (df : DataFrame) (target : Option String)
    (ops : List Operation) : PState × Option String :=
  run_operations ext { df := df, history := [], target := target } ops

/-! ### Interactive handlers

Each embeds one GUI click handler.  GUI inputs (selected columns, chosen
method text, typed constants, dialog answers) are parameters; message boxes
are summarized by an `Outcome`.  Exceptions escaping a handler (the source
has no `try` around most of them) are `Outcome.raised` with the state as
mutated so far. -/

inductive Outcome where
  | committed
  | warned
  | info
  | declined
  | errored
  | raised
deriving DecidableEq

/-- Embedding of the interactive `delete_by_threshold` (src/app.py:1129):
zero qualifying columns is an `Info` no-op, reported distinctly from the
`committed` deletion path. -/
def delete_by_threshold_click (t : ℚ) (confirm : Bool) (st : PState) : PState × Outcome :=
  let drops := colsToDropByThreshold st.df t
  if drops = [] then (st, .info)
  else if confirm then
    ({ st with
        df := st.df.dropColsIgnore drops
        history := st.history ++ [{ name := "delete_by_threshold", threshold := some t }] },
      .committed)
  else (st, .declined)

/-- Embedding of the interactive `convert_dtype` (src/app.py:805): anything
but exactly one selected column is rejected with a warning; the `astype`
call sits in a `try`, so a conversion failure (or a stale column name) is
caught, mutates nothing and logs nothing. -/
def convert_dtype_click (sel : List String) (target : String) (st : PState) : PState × Outcome :=
  if sel.length ≠ 1 then (st, .warned)
  else
    let c := sel.headD ""
    if (st.df.colIdx? c).isSome then
      match astypeCol? target (st.df.col c) with
      | some vs =>
        ({ st with
            df := st.df.setColVals c (dtypeOfTarget target) vs
            history := st.history ++
              [{ name := "convert_dtype", column := some c, target_type := some target }] },
          .committed)
      | none => (st, .errored)
    else (st, .errored)

/-- One interactive imputation column for the non-KNN methods
(src/app.py:742-767).  Unlike the replay loop, `mean`/`median` are guarded
by `is_numeric_dtype` (non-numeric columns get a warning and are skipped,
yet still end up in the logged record), and a failed constant coercion
falls back to filling with the raw string (upcasting the column to object). -/
def imputeColClick (st : PState) (method : String) (constantText : String) (c : String) :
    PState × Option String :=
  match method with
  | "Remove Rows with Missing Values" =>
    match st.df.dropna? c with
    | some df' => ({ st with df := df' }, none)
    | none => (st, some "KeyError")
  | "Fill with Mean" =>
    if (st.df.colIdx? c).isSome then
      if st.df.isNumericCol c then
        match meanQ? (st.df.col c) with
        | some m => ({ st with df := st.df.fillnaCol c (.f m) }, none)
        | none => (st, none)
      else (st, none)
    else (st, some "KeyError")
  | "Fill with Median" =>
    if (st.df.colIdx? c).isSome then
      if st.df.isNumericCol c then
        match medianQ? (st.df.col c) with
        | some m => ({ st with df := st.df.fillnaCol c (.f m) }, none)
        | none => (st, none)
      else (st, none)
    else (st, some "KeyError")
  | "Fill with Mode" =>
    if (st.df.colIdx? c).isSome then
      match modeQ? (st.df.col c) with
      | some m => ({ st with df := st.df.fillnaCol c m }, none)
      | none => (st, some "IndexError")
    else (st, some "KeyError")
  | "Fill with Constant" =>
    if (st.df.colIdx? c).isSome then
      match st.df.dtypeOf c with
      | some dt =>
        match coerceConst? dt constantText with
        | some v => ({ st with df := st.df.fillnaCol c v }, none)
        | none => ({ st with df := st.df.fillnaColObj c (.s constantText) }, none)
      | none => (st, some "KeyError")
    else (st, some "KeyError")
  | _ => (st, none)

def imputeColsClick (method : String) (constantText : String) :
    PState → List String → PState × Option String
  | st, [] => (st, none)
  | st, c :: rest =>
    match imputeColClick st method constantText c with
    | (st', none) => imputeColsClick method constantText st' rest
    | (st', some e) => (st', some e)

/-- Embedding of the interactive `apply_imputation` (src/app.py:730).  One
record is logged per committed call, whose `columns` is the **full**
selection (skipped non-numeric columns included); KNN aborts with no record
when no numeric column is selected, and otherwise also logs the full
selection plus `k_value`. -/
def apply_imputation_click (ext : Oracles) (sel : List String) (method : String)
    (constantText : String) (k : Nat) (st : PState) : PState × Outcome :=
  if sel = [] then (st, .warned)
  else if method = "KNN Imputation" then
    if sel.all st.df.hasCol then
      let ncols := st.df.numericSubset sel
      if ncols = [] then (st, .warned)
      else
        match ext.knn k ncols st.df with
        | .ok df' =>
          ({ st with
              df := df'.reset_index
              history := st.history ++
                [{ name := "apply_imputation", columns := some sel, method := some method,
                   k_value := some k }] },
            .committed)
        | .error _ => (st, .raised)
    else (st, .raised)
  else
    match imputeColsClick method constantText st sel with
    | (st', some _) => (st', .raised)
    | (st', none) =>
      ({ st' with
          df := st'.df.reset_index
          history := st'.history ++
            [{ name := "apply_imputation", columns := some sel, method := some method,
               constant_value :=
                 if method = "Fill with Constant" then some constantText else none }] },
        .committed)

/-- The cap bounds the source computes once per column (src/app.py:1188-1198):
exact rationals for IQR, the float64 oracle pair for Z-score. -/
def capBounds? (ext : Oracles) (vs : List Value) (method : String) (t : ℚ) : Option (ℚ × ℚ) :=
  if method = "IQR" then iqrBounds? vs t
  else some (ext.zscoreBounds vs t)

/-- One column's capped series (`temp_capped_series`): out-of-bound cells are
replaced by the nearest bound, NaN and in-bound cells are untouched. -/
def capSeries (vs : List Value) (lb ub : ℚ) : List Value :=
  vs.map (fun v =>
    match ratOf? v with
    | none => v
    | some x => if x < lb then .f lb else if x > ub then .f ub else v)

/-- The Cap/Winsorize loop (src/app.py:1204-1222): bounds and the before
series always come from the original dataframe `orig` (never capped
mid-call); a column with changes is offered for accept/reject independently,
and a rejected column's cap is discarded. -/
def capLoop (ext : Oracles) (orig : DataFrame) (method : String) (t : ℚ)
    (accept : String → Bool) : DataFrame → List String → DataFrame
  | dfMod, [] => dfMod
  | dfMod, c :: rest =>
    match capBounds? ext (orig.col c) method t with
    | none => capLoop ext orig method t accept dfMod rest
    | some (lb, ub) =>
      let capped := capSeries (orig.col c) lb ub
      if capped ≠ orig.col c ∧ accept c then
        capLoop ext orig method t accept (dfMod.setColVals c .float64 capped) rest
      else capLoop ext orig method t accept dfMod rest

/-- Embedding of the interactive `handle_outliers` (src/app.py:1156).
For `Remove Rows` the per-column outlier labels are unioned across all
numeric columns and dropped in one pass; for `Cap/Winsorize` one record is
logged for the whole call with `columns` equal to **all** processed numeric
columns, accepted or not. -/
def handle_outliers_click (ext : Oracles) (sel : List String) (method action : String)
    (t : ℚ) (accept : String → Bool) (confirmRemove : Bool) (st : PState) : PState × Outcome :=
  if sel = [] then (st, .warned)
  else if !(sel.all st.df.hasCol) then (st, .raised)
  else
    let ncols := st.df.numericSubset sel
    if ncols = [] then (st, .warned)
    else if action = "Remove Rows" then
      let labels := totalOutlierIndices st.df ncols method t
      if labels = [] then (st, .info)
      else if confirmRemove then
        ({ st with
            df := (st.df.dropIndexLabels labels).reset_index
            history := st.history ++
              [{ name := "handle_outliers", columns := some ncols, method := some method,
                 threshold := some t, action := some action }] },
          .committed)
      else ({ st with df := st.df.reset_index }, .declined)
    else
      let dfMod := capLoop ext st.df method t accept st.df ncols
      if st.df = dfMod then (st, .info)
      else
        ({ st with
            df := dfMod.reset_index
            history := st.history ++
              [{ name := "handle_outliers", columns := some ncols, method := some method,
                 threshold := some t, action := some action }] },
          .committed)

/-- The interactive scaling loop (src/app.py:1538-1548): the scaler is fit
per column on the original dataframe; an accepted column's series goes into
`df_modified` and its name into `changed_cols`. -/
def scaleLoop (ext : Oracles) (method : String) (accept : String → Bool) (orig : DataFrame) :
    DataFrame → List String → Except String (DataFrame × List String)
  | dfMod, [] => .ok (dfMod, [])
  | dfMod, c :: rest =>
    match ext.scaler1 method (orig.col c) with
    | .error e => .error e
    | .ok ts =>
      if accept c then
        match scaleLoop ext method accept orig (dfMod.setColVals c .float64 ts) rest with
        | .ok (d, cs) => .ok (d, c :: cs)
        | .error e => .error e
      else scaleLoop ext method accept orig dfMod rest

/-- Embedding of the interactive `apply_scaling` (src/app.py:1505): per-column
accept/reject, then — when at least one column was accepted — `self.df` is
replaced and **one** record is logged for the whole call, with `columns`
equal to the accepted subset. -/
def apply_scaling_click (ext : Oracles) (sel : List String) (method : String)
    (accept : String → Bool) (st : PState) : PState × Outcome :=
  if sel = [] then (st, .warned)
  else if !(sel.all st.df.hasCol) then (st, .raised)
  else
    let ncols := st.df.numericSubset sel
    if ncols = [] then (st, .warned)
    else if method = "StandardScaler" ∨ method = "MinMaxScaler" ∨ method = "RobustScaler" then
      match scaleLoop ext method accept st.df st.df ncols with
      | .error _ => (st, .raised)
      | .ok (dfMod, changed) =>
        if changed = [] then (st, .info)
        else
          ({ st with
              df := dfMod
              history := st.history ++
                [{ name := "apply_scaling", columns := some changed, method := some method }] },
            .committed)
    else (st, .raised)

/-- Embedding of the interactive `apply_encoding` (src/app.py:1253).  The
record is appended after the `if/elif` chain with no `else`, so it logs the
(possibly target-reduced) selection even for a method string matching no
branch. -/
def apply_encoding_click (ext : Oracles) (sel : List String) (method : String)
    (st : PState) : PState × Outcome :=
  if sel = [] then (st, .warned)
  else if method = "OneHotEncoder" then
    if sel.all st.df.hasCol then
      match ext.oneHotNew sel st.df with
      | .ok pairs =>
        let base := st.df.dropColsIgnore sel
        ({ st with
            df := pairs.foldl (fun d p => d.setColVals p.1 .float64 p.2) base
            history := st.history ++
              [{ name := "apply_encoding", columns := some sel, method := some method }] },
          .committed)
      | .error _ => (st, .raised)
    else (st, .raised)
  else if method = "OrdinalEncoder" then
    if sel.all st.df.hasCol then
      match ext.ordinalVals sel st.df with
      | .ok vss =>
        ({ st with
            df := setColsVals st.df sel .float64 vss
            history := st.history ++
              [{ name := "apply_encoding", columns := some sel, method := some method }] },
          .committed)
      | .error _ => (st, .raised)
    else (st, .raised)
  else if method = "TargetEncoder" then
    match st.target with
    | none => (st, .errored)
    | some tn =>
      let sel' := if sel.contains tn then sel.erase tn else sel
      if sel.contains tn ∧ sel' = [] then (st, .warned)
      else if sel'.all st.df.hasCol then
        match ext.targetEncVals tn sel' st.df with
        | .ok vss =>
          ({ st with
              df := setColsVals st.df sel' .float64 vss
              history := st.history ++
                [{ name := "apply_encoding", columns := some sel', method := some method }] },
            .committed)
        | .error _ => (st, .raised)
      else (st, .raised)
  else
    ({ st with
        history := st.history ++
          [{ name := "apply_encoding", columns := some sel, method := some method }] },
      .committed)

/-- The interactive binning loop (src/app.py:1338-1345): the whole loop sits
inside **one** `try`, and the per-column `self.df[new_col] = …` assignments
mutate the live dataframe, so a discretizer failure aborts the batch and the
`error` case carries the partially mutated dataframe. -/
def binLoopClick (ext : Oracles) (n : Nat) (strat : String) :
    DataFrame → List String → Except DataFrame DataFrame
  | df, [] => .ok df
  | df, c :: rest =>
    match ext.kbins n strat (df.col c) with
    | .error _ => .error df
    | .ok codes =>
      binLoopClick ext n strat (df.setColVals (c ++ "_binned") .int64 (codes.map .i)) rest

/-- Embedding of the interactive `apply_binning` (src/app.py:1306): on
success all original numeric columns are dropped after the loop and one
record is logged with the numeric subset; on a discretizer failure the
`except` reports an error, keeping the partial mutation and logging nothing. -/
def apply_binning_click (ext : Oracles) (sel : List String) (n : Nat) (strat : String)
    (st : PState) : PState × Outcome :=
  if sel = [] then (st, .warned)
  else if !(sel.all st.df.hasCol) then (st, .raised)
  else
    let ncols := st.df.numericSubset sel
    if ncols = [] then (st, .warned)
    else
      match binLoopClick ext n strat st.df ncols with
      | .error dfPartial => ({ st with df := dfPartial }, .errored)
      | .ok df1 =>
        match df1.dropCols? ncols with
        | some df2 =>
          ({ st with
              df := df2
              history := st.history ++
                [{ name := "apply_binning", columns := some ncols, n_bins := some n,
                   strategy := some strat }] },
            .committed)
        | none => ({ st with df := df1 }, .errored)

/-! ### Shared concrete objects (used by witnesses and counterexamples) -/

/-- The transformation shared by the replay arm (src/app.py:983-985) and the
confirmed interactive path (src/app.py:706-707): `drop_duplicates` followed
by `reset_index(drop=True)`. -/
def remove_duplicates (df : DataFrame) : DataFrame :=
  df.drop_duplicates.reset_index

/-- Identity-like oracle bundle for concrete runs (the library calls succeed
and return their input shape unchanged). -/
def trivialOracles : Oracles where
  knn _ _ df := .ok df
  scalerMulti _ _ df := .ok df
  scaler1 _ vs := .ok vs
  oneHotNew _ _ := .ok []
  ordinalVals _ _ := .ok []
  targetEncVals _ _ _ := .ok []
  kbins _ _ _ := .ok [7]
  zscoreBounds _ _ := (0, 0)

/-- Oracle bundle whose discretizer fails exactly on the column `[2]`
(e.g. sklearn raising on that column) and bins everything else. -/
def binFailOracles : Oracles :=
  { trivialOracles with
    kbins := fun _ _ vs => if vs = [Value.i 2] then .error "ValueError" else .ok [7] }

/-- One int column with one duplicated row. -/
def dfDup : DataFrame :=
  { colNames := ["x"], colTypes := [.int64], rows := [(0, [.i 1]), (1, [.i 1])] }

/-- Two numeric columns, one row. -/
def dfAB : DataFrame :=
  { colNames := ["a", "b"], colTypes := [.int64, .int64], rows := [(0, [.i 1, .i 2])] }

/-- Two columns; `a` has 1 missing cell out of 2 rows (50 %), `b` none. -/
def dfMiss : DataFrame :=
  { colNames := ["a", "b"], colTypes := [.float64, .int64],
    rows := [(0, [.na, .i 1]), (1, [.f 2, .i 2])] }

/-- The spec's outlier example: one int column `[1, 2, 3, 4, 5, 100]`. -/
def df6 : DataFrame :=
  { colNames := ["x"], colTypes := [.int64],
    rows := [(0, [.i 1]), (1, [.i 2]), (2, [.i 3]), (3, [.i 4]), (4, [.i 5]), (5, [.i 100])] }

/-! ### Helper lemmas: duplicate removal -/

namespace DataFrame

theorem countDupsFrom_le (seen : List (List Value)) (l : List (Nat × List Value)) :
    countDupsFrom seen l ≤ l.length := by
  induction l generalizing seen with
  | nil => simp [countDupsFrom]
  | cons r rest ih =>
    simp only [countDupsFrom, List.length_cons]
    have := ih (r.2 :: seen)
    split <;> omega

theorem dedupFrom_length (seen : List (List Value)) (l : List (Nat × List Value)) :
    (dedupFrom seen l).length = l.length - countDupsFrom seen l := by
  induction l generalizing seen with
  | nil => simp [dedupFrom, countDupsFrom]
  | cons r rest ih =>
    simp only [dedupFrom, countDupsFrom, List.length_cons]
    have hle := countDupsFrom_le (r.2 :: seen) rest
    split
    · simp only [ih]
      omega
    · simp only [List.length_cons, ih]
      omega

theorem dedupFrom_keeps_first (seen : List (List Value)) (l : List (Nat × List Value))
    (p : Nat × List Value) (hp : p ∈ dedupFrom seen l) :
    p.2 ∉ seen ∧ l.find? (fun q => q.2 == p.2) = some p := by
  induction l generalizing seen with
  | nil => simp [dedupFrom] at hp
  | cons r rest ih =>
    simp only [dedupFrom] at hp
    by_cases hmem : r.2 ∈ seen
    · rw [if_pos hmem] at hp
      obtain ⟨hns, hfind⟩ := ih _ hp
      have hne : p.2 ≠ r.2 := fun h => hns (by simp [h])
      refine ⟨fun h => hns (by simp [h]), ?_⟩
      rw [List.find?_cons_of_neg, hfind]
      simpa using fun h => hne h.symm
    · rw [if_neg hmem] at hp
      rcases List.mem_cons.mp hp with h | h
      · subst h
        exact ⟨hmem, by rw [List.find?_cons_of_pos _ (by simp)]⟩
      · obtain ⟨hns, hfind⟩ := ih _ h
        have hne : p.2 ≠ r.2 := fun hh => hns (by simp [hh])
        refine ⟨fun hh => hns (by simp [hh]), ?_⟩
        rw [List.find?_cons_of_neg, hfind]
        simpa using fun h => hne h.symm

theorem dedupFrom_nodup (seen : List (List Value)) (l : List (Nat × List Value)) :
    ((dedupFrom seen l).map Prod.snd).Nodup := by
  induction l generalizing seen with
  | nil => simp [dedupFrom]
  | cons r rest ih =>
    simp only [dedupFrom]
    split
    · exact ih _
    · simp only [List.map_cons, List.nodup_cons]
      refine ⟨fun hmem => ?_, ih _⟩
      obtain ⟨p, hp, hsnd⟩ := List.mem_map.mp hmem
      have := (dedupFrom_keeps_first _ _ _ hp).1
      exact this (by simp [hsnd])

theorem dedupFrom_eq_self (seen : List (List Value)) (l : List (Nat × List Value))
    (hnd : (l.map Prod.snd).Nodup) (hdisj : ∀ p ∈ l, p.2 ∉ seen) :
    dedupFrom seen l = l := by
  induction l generalizing seen with
  | nil => simp [dedupFrom]
  | cons r rest ih =>
    simp only [List.map_cons, List.nodup_cons] at hnd
    have hrs : r.2 ∉ seen := hdisj r (by simp)
    simp only [dedupFrom, if_neg hrs, List.cons.injEq, true_and]
    refine ih _ hnd.2 (fun p hp => ?_)
    simp only [List.mem_cons, not_or]
    refine ⟨fun h => hnd.1 ?_, hdisj p (by simp [hp])⟩
    exact List.mem_map.mpr ⟨p, hp, h⟩

theorem reset_index_fst (df : DataFrame) :
    (df.reset_index).rows.map Prod.fst = List.range df.rows.length := by
  simp [reset_index, List.enum_map_fst]

end DataFrame

/-- `remove_duplicates` applied twice equals it applied once. -/
theorem remove_duplicates_idem_aux (df : DataFrame) :
    remove_duplicates (remove_duplicates df) = remove_duplicates df := by
  unfold remove_duplicates
  unfold DataFrame.drop_duplicates DataFrame.reset_index
  simp only
  congr 1
  have hsnd : ((DataFrame.dedupFrom [] df.rows).map Prod.snd).enum.map Prod.snd
      = (DataFrame.dedupFrom [] df.rows).map Prod.snd := List.enum_map_snd _
  have hnd : (((DataFrame.dedupFrom [] df.rows).map Prod.snd).enum.map Prod.snd).Nodup := by
    rw [hsnd]; exact DataFrame.dedupFrom_nodup [] df.rows
  rw [DataFrame.dedupFrom_eq_self [] _ hnd (by simp)]
  rw [hsnd]

/-- C6.  For every dataset `D`, `remove_duplicates(D)` has row count
`D.row_count − count_of_exact_duplicate_rows(D)`, keeps the first occurrence
of each duplicated row, reindexes the rows afterward (labels become
`0, 1, …`), and is idempotent. -/
theorem C6_remove_duplicates_spec (df : DataFrame) :
    (remove_duplicates df).rows.length = df.rows.length - df.duplicatedCount
    ∧ (∀ p ∈ df.drop_duplicates.rows, df.rows.find? (fun q => q.2 == p.2) = some p)
    ∧ (remove_duplicates df).rows.map Prod.fst = List.range (remove_duplicates df).rows.length
    ∧ remove_duplicates (remove_duplicates df) = remove_duplicates df := by
  refine ⟨?_, ?_, ?_, remove_duplicates_idem_aux df⟩
  · simp only [remove_duplicates, DataFrame.reset_index, DataFrame.drop_duplicates,
      DataFrame.duplicatedCount, List.enum_length, List.length_map]
    exact DataFrame.dedupFrom_length [] df.rows
  · exact fun p hp => (DataFrame.dedupFrom_keeps_first [] df.rows p hp).2
  · simp only [remove_duplicates, DataFrame.reset_index, List.enum_map_fst, List.enum_length,
      List.length_map]

/-- C6 witness: the theorem instantiated on the concrete frame `dfDup`
(rows `[1], [1]`), whose first row is kept, relabeled `0`, with one
duplicate removed. -/
theorem C6_remove_duplicates_spec_witness :
    ((remove_duplicates dfDup).rows.length = dfDup.rows.length - dfDup.duplicatedCount
      ∧ dfDup.rows.find? (fun q => q.2 == [Value.i 1]) = some (0, [Value.i 1])
      ∧ (remove_duplicates dfDup).rows.map Prod.fst = List.range (remove_duplicates dfDup).rows.length
      ∧ remove_duplicates (remove_duplicates dfDup) = remove_duplicates dfDup)
    ∧ (remove_duplicates dfDup).rows = [(0, [Value.i 1])] := by
  have h := C6_remove_duplicates_spec dfDup
  refine ⟨⟨h.1, ?_, h.2.2.1, h.2.2.2⟩, by decide⟩
  have hm : (0, [Value.i 1]) ∈ dfDup.drop_duplicates.rows := by decide
  exact h.2.1 _ hm

/-! ### Helper lemmas: threshold deletion -/

theorem filter_not_mem_filter (l : List String) (q : String → Bool) :
    l.filter (fun n => !((l.filter q).contains n)) = l.filter (fun n => !(q n)) := by
  refine List.filter_congr (fun x hx => ?_)
  by_cases hq : q x = true
  · have hmem : x ∈ l.filter q := List.mem_filter.mpr ⟨hx, hq⟩
    simp [hmem, hq]
  · have hnm : x ∉ l.filter q := fun hmem => hq (List.mem_filter.mp hmem).2
    simp [hnm, hq]

/-- Dropping the over-threshold columns keeps exactly the columns whose
missing percentage is not strictly above `t` (row count positive, so the
NaN-percentage guard is vacuous). -/
theorem dropByThreshold_colNames (df : DataFrame) (t : ℚ) (h : 0 < df.rows.length) :
    (df.dropColsIgnore (colsToDropByThreshold df t)).colNames =
      df.colNames.filter (fun c =>
        !(decide ((DataFrame.missingCount (df.col c) : ℚ) / (df.rows.length : ℚ) * 100 > t))) := by
  have hd : (decide (0 < df.rows.length)) = true := decide_eq_true h
  show df.colNames.filter _ = _
  unfold colsToDropByThreshold
  simp only [hd, Bool.true_and]
  exact filter_not_mem_filter _ _

/-- When no column qualifies, the strict filter keeps every column. -/
theorem noDrop_filter_eq (df : DataFrame) (t : ℚ) (h : 0 < df.rows.length)
    (hnil : colsToDropByThreshold df t = []) :
    df.colNames.filter (fun c =>
      !(decide ((DataFrame.missingCount (df.col c) : ℚ) / (df.rows.length : ℚ) * 100 > t)))
      = df.colNames := by
  have hd : (decide (0 < df.rows.length)) = true := decide_eq_true h
  refine List.filter_eq_self.mpr (fun c hc => ?_)
  have h2 := List.filter_eq_nil_iff.mp hnil c hc
  rw [hd, Bool.true_and] at h2
  simpa using h2

/-- C7.  Threshold deletion is strict: after a confirmed interactive call the
surviving columns are exactly those whose missing percentage is not strictly
above `t`; a column at exactly `t` survives; zero qualifying columns is a
no-op reported distinctly (`Info`, not `committed`); the replay arm applies
the same strict filter. -/
theorem C7_delete_by_threshold_strict (st : PState) (t : ℚ) (h : 0 < st.df.rows.length) :
    ((delete_by_threshold_click t true st).1.df.colNames =
        st.df.colNames.filter (fun c =>
          !(decide ((DataFrame.missingCount (st.df.col c) : ℚ) / (st.df.rows.length : ℚ) * 100 > t))))
    ∧ (∀ c ∈ st.df.colNames,
        (DataFrame.missingCount (st.df.col c) : ℚ) / (st.df.rows.length : ℚ) * 100 = t →
        c ∈ (delete_by_threshold_click t true st).1.df.colNames)
    ∧ (colsToDropByThreshold st.df t = [] →
        delete_by_threshold_click t true st = (st, Outcome.info))
    ∧ Outcome.info ≠ Outcome.committed
    ∧ (∀ ext : Oracles,
        (execute_operation ext st
            { name := "delete_by_threshold", threshold := some t }).1.df.colNames =
          st.df.colNames.filter (fun c =>
            !(decide ((DataFrame.missingCount (st.df.col c) : ℚ) / (st.df.rows.length : ℚ) * 100 > t)))) := by
  have hclick : (delete_by_threshold_click t true st).1.df.colNames =
      st.df.colNames.filter (fun c =>
        !(decide ((DataFrame.missingCount (st.df.col c) : ℚ) / (st.df.rows.length : ℚ) * 100 > t))) := by
    by_cases hnil : colsToDropByThreshold st.df t = []
    · rw [noDrop_filter_eq st.df t h hnil]
      simp [delete_by_threshold_click, hnil]
    · rw [← dropByThreshold_colNames st.df t h]
      simp [delete_by_threshold_click, hnil]
  refine ⟨hclick, ?_, ?_, by simp, ?_⟩
  · intro c hc hpct
    rw [hclick]
    refine List.mem_filter.mpr ⟨hc, ?_⟩
    simp [hpct]
  · intro hnil
    simp [delete_by_threshold_click, hnil]
  · intro ext
    by_cases hnil : colsToDropByThreshold st.df t = []
    · rw [noDrop_filter_eq st.df t h hnil]
      simp [execute_operation, execDeleteByThreshold, hnil]
    · rw [← dropByThreshold_colNames st.df t h]
      simp [execute_operation, execDeleteByThreshold, hnil]

/-- C7 witness: on `dfMiss` (column `a` at exactly 50 % missing, `b` at 0 %),
threshold 50 deletes nothing and reports the distinct no-op, while
threshold 49 deletes exactly `a`. -/
theorem C7_delete_by_threshold_strict_witness :
    (delete_by_threshold_click 50 true { df := dfMiss, history := [] }).1.df.colNames = ["a", "b"]
    ∧ delete_by_threshold_click 50 true { df := dfMiss, history := [] } =
        ({ df := dfMiss, history := [] }, Outcome.info)
    ∧ (delete_by_threshold_click 49 true { df := dfMiss, history := [] }).1.df.colNames = ["b"] := by
  have h50 := C7_delete_by_threshold_strict { df := dfMiss, history := [] } 50 (by decide)
  have h49 := C7_delete_by_threshold_strict { df := dfMiss, history := [] } 49 (by decide)
  refine ⟨?_, ?_, ?_⟩
  · rw [h50.1]
    simp [dfMiss, DataFrame.col, DataFrame.colIdx?, DataFrame.missingCount, DataFrame.cellAt,
      instBEqOfDecidableEq, List.findIdx?, List.countP_cons, List.countP_nil,
      List.filter_cons, List.filter_nil]
    all_goals norm_num
  · refine h50.2.2.1 ?_
    simp [colsToDropByThreshold, dfMiss, DataFrame.col, DataFrame.colIdx?,
      DataFrame.missingCount, DataFrame.cellAt, instBEqOfDecidableEq, List.findIdx?,
      List.countP_cons, List.countP_nil, List.filter_cons, List.filter_nil]
    all_goals norm_num
  · rw [h49.1]
    simp [dfMiss, DataFrame.col, DataFrame.colIdx?, DataFrame.missingCount, DataFrame.cellAt,
      instBEqOfDecidableEq, List.findIdx?, List.countP_cons, List.countP_nil,
      List.filter_cons, List.filter_nil]
    all_goals norm_num

/-- C8.  Dtype conversion: anything but exactly one selected column is
rejected without mutation; a failed conversion (interactive or replayed)
leaves the dataset and the history exactly as they were — all-or-nothing,
no record appended. -/
theorem C8_convert_dtype_all_or_nothing (st : PState) (sel : List String) (target : String) :
    (sel.length ≠ 1 → convert_dtype_click sel target st = (st, Outcome.warned))
    ∧ (∀ c, sel = [c] → astypeCol? target (st.df.col c) = none →
        convert_dtype_click sel target st = (st, Outcome.errored))
    ∧ (∀ (ext : Oracles) (c tt : String),
        astypeCol? tt (st.df.col c) = none →
        execute_operation ext st
            { name := "convert_dtype", column := some c, target_type := some tt }
          = (st, some "ValueError")) := by
  refine ⟨fun h => by simp [convert_dtype_click, h], ?_, ?_⟩
  · intro c hsel hfail
    subst hsel
    by_cases hs : (st.df.colIdx? c).isSome
    · simp [convert_dtype_click, hs, hfail]
    · simp [convert_dtype_click, hs]
  · intro ext c tt hfail
    by_cases hs : (st.df.colIdx? c).isSome
    · simp [execute_operation, execConvertDtype, hs, hfail]
    · exfalso
      have hnone : st.df.colIdx? c = none := Option.not_isSome_iff_eq_none.mp hs
      simp [DataFrame.col, hnone, astypeCol?, List.mapM.loop] at hfail

/-- C8 witness: converting column `a` of `dfMiss` (a NaN and `2.0`) to
`int64` fails (NaN has no integer cast) and leaves the state untouched,
interactively and in replay; a two-column selection is rejected up front. -/
theorem C8_convert_dtype_all_or_nothing_witness :
    convert_dtype_click ["a"] "int64" { df := dfMiss, history := [] } =
        ({ df := dfMiss, history := [] }, Outcome.errored)
    ∧ convert_dtype_click ["a", "b"] "int64" { df := dfMiss, history := [] } =
        ({ df := dfMiss, history := [] }, Outcome.warned)
    ∧ execute_operation trivialOracles { df := dfMiss, history := [] }
          { name := "convert_dtype", column := some "a", target_type := some "int64" }
        = ({ df := dfMiss, history := [] }, some "ValueError") := by
  have h1 := C8_convert_dtype_all_or_nothing { df := dfMiss, history := [] } ["a"] "int64"
  have h2 := C8_convert_dtype_all_or_nothing { df := dfMiss, history := [] } ["a", "b"] "int64"
  exact ⟨h1.2.1 "a" rfl (by decide), h2.1 (by decide),
    h1.2.2 trivialOracles "a" "int64" (by decide)⟩

/-- C10.  A record whose `name` matches none of the dispatcher's arms leaves
both the dataset and the history untouched and raises nothing: the `elif`
chain has no final `else`. -/
theorem C10_unrecognized_kind_ignored (ext : Oracles) (st : PState) (op : Operation)
    (h : op.name ∉ recognizedKinds) :
    execute_operation ext st op = (st, none) := by
  simp only [recognizedKinds, List.mem_cons, List.mem_singleton, not_or] at h
  obtain ⟨h1, h2, h3, h4, h5, h6, h7, h8, -⟩ := h
  simp [execute_operation, h1, h2, h3, h4, h5, h6, h7, h8]

/-- C10 witness: a `frobnicate` record is silently ignored. -/
theorem C10_unrecognized_kind_ignored_witness :
    ({ name := "frobnicate" } : Operation).name ∉ recognizedKinds
    ∧ execute_operation trivialOracles { df := dfDup, history := [] } { name := "frobnicate" }
        = ({ df := dfDup, history := [] }, none) :=
  ⟨by decide,
    C10_unrecognized_kind_ignored trivialOracles { df := dfDup, history := [] }
      { name := "frobnicate" } (by decide)⟩

/-- C2 (code evaluated at the failing input).  A `handle_outliers` record —
a kind of the closed OperationKind set that the interactive handler logs and
`save_pipeline` serializes — matches no arm of the replay dispatcher: the
dataset and the history are left untouched instead of the outlier handling
being re-applied. -/
theorem C2_handle_outliers_record_not_replayed (ext : Oracles) (st : PState) (op : Operation)
    (h : op.name = "handle_outliers") :
    execute_operation ext st op = (st, none) := by
  simp [execute_operation, h]

/-- C2 witness: the exact record the interactive handler would log for
`handle_outliers(columns=[x], IQR, 1.5, Remove Rows)` replays as a no-op on
`df6 = [1,2,3,4,5,100]`, although row `100` is an IQR outlier there. -/
theorem C2_handle_outliers_record_not_replayed_witness :
    execute_operation trivialOracles { df := df6, history := [] }
        { name := "handle_outliers", columns := some ["x"], method := some "IQR",
          threshold := some (3/2), action := some "Remove Rows" }
      = ({ df := df6, history := [] }, none) :=
  C2_handle_outliers_record_not_replayed trivialOracles { df := df6, history := [] }
    _ rfl

/-- C1 counterexample.  The whole replay `for` loop sits in one `try`
(src/app.py:952-977): a record referencing an absent column (`zzz`) raises,
and the following `remove_duplicates` record is **not** processed — `dfDup`
keeps its duplicate row — contradicting "the remaining records continue
processing". -/
theorem C1_replay_not_per_record_counterexample :
    load_and_apply_pipeline trivialOracles dfDup none
        [{ name := "apply_imputation", columns := some ["zzz"], method := some "Fill with Mean" },
         { name := "remove_duplicates" }]
      = ({ df := dfDup, history := [] }, some "KeyError")
    ∧ (remove_duplicates dfDup).rows.length = 1
    ∧ dfDup.rows.length = 2 := by
  refine ⟨?_, by decide, by decide⟩
  decide

/-- C1 amended.  A failure while executing one record halts the **entire
remaining replay** (the exception is caught once, around the whole loop),
keeping every mutation made before the raise; in particular a failing
`delete_columns` record has already appended its own record to the rebuilt
history before the raise, so it is kept, not dropped. -/
theorem C1_replay_halts_on_error :
    (∀ (ext : Oracles) (st st1 st2 : PState) (ops1 ops2 : List Operation) (op : Operation)
        (e : String),
        run_operations ext st ops1 = (st1, none) →
        execute_operation ext st1 op = (st2, some e) →
        run_operations ext st (ops1 ++ op :: ops2) = (st2, some e))
    ∧ (∀ (ext : Oracles) (st : PState) (cs : List String),
        ¬(cs.all st.df.hasCol = true) →
        execute_operation ext st { name := "delete_columns", columns := some cs } =
          ({ st with
              history := st.history ++ [{ name := "delete_columns", columns := some cs }] },
            some "KeyError")) := by
  constructor
  · intro ext st st1 st2 ops1 ops2 op e hrun hfail
    induction ops1 generalizing st with
    | nil =>
      simp only [run_operations, Prod.mk.injEq] at hrun
      simp only [List.nil_append, run_operations, hrun.1 ▸ hfail]
    | cons o os ih =>
      rcases hexec : execute_operation ext st o with ⟨st', err⟩
      cases err with
      | none =>
        simp only [run_operations, hexec] at hrun
        simpa only [List.cons_append, run_operations, hexec] using ih st' hrun
      | some e' =>
        simp only [run_operations, hexec, Prod.mk.injEq] at hrun
        exact absurd hrun.2 (by simp)
  · intro ext st cs h
    simp [execute_operation, execDeleteCols, DataFrame.dropCols?, h]

/-- C1 witness: the general halting statement instantiated on `dfDup` with a
successful prefix `[remove_duplicates]`, a failing `delete_columns [zzz]`,
and a pending `remove_duplicates` that is never reached. -/
theorem C1_replay_halts_on_error_witness :
    run_operations trivialOracles { df := dfDup, history := [] }
        ([{ name := "remove_duplicates" }] ++
          { name := "delete_columns", columns := some ["zzz"] } ::
            [{ name := "remove_duplicates" }])
      = ({ df := remove_duplicates dfDup,
           history := [{ name := "delete_columns", columns := some ["zzz"] }] },
          some "KeyError") := by
  have hpre : run_operations trivialOracles { df := dfDup, history := [] }
      [{ name := "remove_duplicates" }]
      = ({ df := remove_duplicates dfDup, history := [] }, none) := by
    decide
  have h2 := C1_replay_halts_on_error.2 trivialOracles
    { df := remove_duplicates dfDup, history := [] } ["zzz"] (by decide)
  exact C1_replay_halts_on_error.1 trivialOracles _ _ _ _ _ _ _ hpre (by simpa using h2)

/-! ### Helper lemmas: which replay arms touch the history -/

theorem imputeColReplay_history (st : PState) (method : String) (cv : Option String)
    (c : String) : (imputeColReplay st method cv c).1.history = st.history := by
  unfold imputeColReplay
  repeat' split
  all_goals rfl

theorem imputeColsReplay_history (method : String) (cv : Option String) :
    ∀ (st : PState) (cols : List String),
      (imputeColsReplay method cv st cols).1.history = st.history := by
  intro st cols
  induction cols generalizing st with
  | nil => rfl
  | cons c rest ih =>
    unfold imputeColsReplay
    rcases h : imputeColReplay st method cv c with ⟨st', err⟩
    have hh : st'.history = st.history := by
      have := imputeColReplay_history st method cv c
      rw [h] at this
      exact this
    cases err with
    | none => simpa [hh] using (hh ▸ ih st')
    | some e => simpa using hh

theorem execImputation_history (ext : Oracles) (st : PState) (op : Operation) :
    (execImputation ext st op).1.history = st.history := by
  unfold execImputation
  repeat' split
  all_goals first | rfl | (exact imputeColsReplay_history _ _ _ _)

theorem execConvertDtype_history (st : PState) (op : Operation) :
    (execConvertDtype st op).1.history = st.history := by
  unfold execConvertDtype
  repeat' split
  all_goals rfl

theorem execScaling_history (ext : Oracles) (st : PState) (op : Operation) :
    (execScaling ext st op).1.history = st.history := by
  unfold execScaling
  dsimp only
  repeat' split
  all_goals rfl

theorem execEncoding_history (ext : Oracles) (st : PState) (op : Operation) :
    (execEncoding ext st op).1.history = st.history := by
  unfold execEncoding
  dsimp only
  repeat' split
  all_goals rfl

theorem execBinning_history (ext : Oracles) (st : PState) (op : Operation) :
    (execBinning ext st op).1.history = st.history := by
  unfold execBinning
  dsimp only
  repeat' split
  all_goals rfl

/-- Every dispatcher arm except the two delete kinds leaves the history
untouched. -/
theorem execOp_history_preserved (ext : Oracles) (st : PState) (op : Operation)
    (h1 : op.name ≠ "delete_by_threshold") (h2 : op.name ≠ "delete_columns") :
    (execute_operation ext st op).1.history = st.history := by
  unfold execute_operation
  repeat' split
  all_goals first
    | rfl
    | (exact execImputation_history ext st op)
    | (exact execConvertDtype_history st op)
    | (exact execScaling_history ext st op)
    | (exact execEncoding_history ext st op)
    | (exact execBinning_history ext st op)

/-- Every arm of the dispatcher extends the history only by records of the
two delete kinds (all other arms never append). -/
theorem execOp_history_extension (ext : Oracles) (st : PState) (op : Operation) :
    ∃ L, (execute_operation ext st op).1.history = st.history ++ L
      ∧ ∀ r ∈ L, r.name = "delete_by_threshold" ∨ r.name = "delete_columns" := by
  by_cases h1 : op.name = "delete_by_threshold"
  · rcases ht : op.threshold with _ | t
    · exact ⟨[], by simp [execute_operation, execDeleteByThreshold, h1, ht]⟩
    · by_cases hd : colsToDropByThreshold st.df t = []
      · exact ⟨[], by simp [execute_operation, execDeleteByThreshold, h1, ht, hd]⟩
      · exact ⟨[{ name := "delete_by_threshold", threshold := some t }],
          by simp [execute_operation, execDeleteByThreshold, h1, ht, hd]⟩
  · by_cases h2 : op.name = "delete_columns"
    · rcases hcs : op.columns with _ | cs
      · exact ⟨[], by simp [execute_operation, execDeleteCols, h1, h2, hcs]⟩
      · rcases hdrop : st.df.dropCols? cs with _ | df'
        · exact ⟨[{ name := "delete_columns", columns := some cs }],
            by simp [execute_operation, execDeleteCols, h1, h2, hcs, hdrop]⟩
        · exact ⟨[{ name := "delete_columns", columns := some cs }],
            by simp [execute_operation, execDeleteCols, h1, h2, hcs, hdrop]⟩
    · exact ⟨[], by simp [execOp_history_preserved ext st op h1 h2]⟩

/-- C3 counterexample.  Replaying the one-record history
`[remove_duplicates]` succeeds with nothing skipped — the dataset is visibly
deduplicated — yet the rebuilt history is `[]`, not the input history: only
the delete kinds re-append their records during replay. -/
theorem C3_replay_history_not_rebuilt_counterexample :
    load_and_apply_pipeline trivialOracles dfDup none [{ name := "remove_duplicates" }]
      = ({ df := remove_duplicates dfDup, history := [] }, none)
    ∧ ([] : List Operation) ≠ [{ name := "remove_duplicates" }]
    ∧ (remove_duplicates dfDup).rows ≠ dfDup.rows :=
  ⟨by decide, by decide, by decide⟩

/-- C3 amended.  The history rebuilt during replay consists exactly of the
records appended by the `delete_by_threshold` / `delete_columns` arms: every
other kind is replayed without re-appending its record, so the rebuilt
history is structurally identical to the input only when the input is made
of such delete records. -/
theorem C3_replay_history_only_delete_kinds (ext : Oracles) (st : PState)
    (ops : List Operation) :
    ∃ L, (run_operations ext st ops).1.history = st.history ++ L
      ∧ ∀ r ∈ L, r.name = "delete_by_threshold" ∨ r.name = "delete_columns" := by
  induction ops generalizing st with
  | nil => exact ⟨[], by simp [run_operations]⟩
  | cons op rest ih =>
    obtain ⟨L1, hL1, hn1⟩ := execOp_history_extension ext st op
    rcases hexec : execute_operation ext st op with ⟨st', err⟩
    rw [hexec] at hL1
    cases err with
    | some e => exact ⟨L1, by simp [run_operations, hexec]; exact hL1, hn1⟩
    | none =>
      obtain ⟨L2, hL2, hn2⟩ := ih st'
      refine ⟨L1 ++ L2, ?_, ?_⟩
      · rw [show run_operations ext st (op :: rest) = run_operations ext st' rest by
          simp [run_operations, hexec], hL2, hL1, List.append_assoc]
      · intro r hr
        rcases List.mem_append.mp hr with h | h
        exacts [hn1 r h, hn2 r h]

/-- C9 counterexample.  Interactively binning `[a, b]` of `dfAB` with a
discretizer that fails on `b`: the whole batch aborts (`b` is not "merely
skipped" — nothing is committed), yet `a_binned` was already written into
the live dataframe while both originals survive and no record is logged — a
state that is neither unmutated nor fully mutated. -/
theorem C9_binning_batch_aborts_counterexample :
    (apply_binning_click binFailOracles ["a", "b"] 5 "quantile"
        { df := dfAB, history := [] }).2 = Outcome.errored
    ∧ (apply_binning_click binFailOracles ["a", "b"] 5 "quantile"
        { df := dfAB, history := [] }).1.df.colNames = ["a", "b", "a_binned"]
    ∧ (apply_binning_click binFailOracles ["a", "b"] 5 "quantile"
        { df := dfAB, history := [] }).1.df ≠ dfAB
    ∧ (apply_binning_click binFailOracles ["a", "b"] 5 "quantile"
        { df := dfAB, history := [] }).1.history = [] := by
  refine ⟨by decide, by decide, by decide, by decide⟩

/-- C9 amended.  The *replay* arm has the claimed per-column semantics: a
failing column is skipped while the loop continues, the arm never raises and
never logs.  The *interactive* handler instead aborts the whole batch on the
first discretizer failure, keeping the partial mutation and logging nothing. -/
theorem C9_binning_failure_semantics :
    (∀ (ext : Oracles) (st : PState) (op : Operation), op.name = "apply_binning" →
        (execute_operation ext st op).1.history = st.history
        ∧ (execute_operation ext st op).2 = none)
    ∧ (∀ (ext : Oracles) (n : Nat) (strat : String) (df : DataFrame) (c : String)
        (rest : List String) (e : String),
        ext.kbins n strat (df.col c) = .error e →
        binLoopReplay ext n strat df (c :: rest) = binLoopReplay ext n strat df rest)
    ∧ (∀ (ext : Oracles) (n : Nat) (strat : String) (df : DataFrame) (c : String)
        (rest : List String) (e : String),
        ext.kbins n strat (df.col c) = .error e →
        binLoopClick ext n strat df (c :: rest) = .error df)
    ∧ (∀ (ext : Oracles) (sel : List String) (n : Nat) (strat : String) (st st' : PState),
        apply_binning_click ext sel n strat st = (st', Outcome.errored) →
        st'.history = st.history) := by
  refine ⟨?_, ?_, ?_, ?_⟩
  · intro ext st op h
    constructor
    · simp [execute_operation, h, execBinning_history]
    · have harm : execute_operation ext st op = execBinning ext st op := by
        simp [execute_operation, h]
      rw [harm]
      unfold execBinning
      dsimp only
      repeat' split
      all_goals rfl
  · intro ext n strat df c rest e h
    simp [binLoopReplay, h]
  · intro ext n strat df c rest e h
    simp [binLoopClick, h]
  · intro ext sel n strat st st' h
    unfold apply_binning_click at h
    dsimp only at h
    repeat' split at h
    all_goals injection h with h1 h2
    all_goals try exact absurd h2 (by decide)
    all_goals rw [← h1]

/-- C9 witness: the four parts instantiated on `dfAB` with the discretizer
failing on column `b`. -/
theorem C9_binning_failure_semantics_witness :
    ((execute_operation trivialOracles { df := dfAB, history := [] }
          { name := "apply_binning", columns := some ["a", "b"] }).1.history = []
      ∧ (execute_operation trivialOracles { df := dfAB, history := [] }
          { name := "apply_binning", columns := some ["a", "b"] }).2 = none)
    ∧ binLoopReplay binFailOracles 5 "quantile" dfAB ["b", "a"]
        = binLoopReplay binFailOracles 5 "quantile" dfAB ["a"]
    ∧ binLoopClick binFailOracles 5 "quantile" dfAB ["b", "a"] = .error dfAB
    ∧ (apply_binning_click binFailOracles ["a", "b"] 5 "quantile"
          { df := dfAB, history := [] }).1.history = ([] : List Operation) := by
  have h1 := C9_binning_failure_semantics.1 trivialOracles { df := dfAB, history := [] }
    { name := "apply_binning", columns := some ["a", "b"] } rfl
  refine ⟨⟨h1.1, h1.2⟩, ?_, ?_, ?_⟩
  · exact C9_binning_failure_semantics.2.1 binFailOracles 5 "quantile" dfAB "b" ["a"]
      "ValueError" (by rfl)
  · exact C9_binning_failure_semantics.2.2.1 binFailOracles 5 "quantile" dfAB "b" ["a"]
      "ValueError" (by rfl)
  · exact C9_binning_failure_semantics.2.2.2 binFailOracles ["a", "b"] 5 "quantile"
      { df := dfAB, history := [] }
      { df := { colNames := ["a", "b", "a_binned"], colTypes := [.int64, .int64, .int64],
                rows := [(0, [.i 1, .i 2, .i 7])] },
        history := [] }
      (by decide)

/-- C4 counterexample.  An interactive scaling call over two numeric columns
with both previews accepted appends **one** record for the whole call (its
`columns` lists both accepted columns), not one record per accepted column
as claimed. -/
theorem C4_one_record_per_call_counterexample :
    (apply_scaling_click trivialOracles ["a", "b"] "StandardScaler" (fun _ => true)
        { df := dfAB, history := [] }).2 = Outcome.committed
    ∧ ((dfAB.numericSubset ["a", "b"]).filter (fun _ => true)).length = 2
    ∧ (apply_scaling_click trivialOracles ["a", "b"] "StandardScaler" (fun _ => true)
          { df := dfAB, history := [] }).1.history
        = [{ name := "apply_scaling", columns := some ["a", "b"],
             method := some "StandardScaler" }] :=
  ⟨by decide, by decide, by decide⟩

/-! ### Helper lemmas: interactive logging shapes -/

/-- The accepted-column list built by the interactive scaling loop is the
`accept`-filtered column list. -/
theorem scaleLoop_changed (ext : Oracles) (method : String) (accept : String → Bool)
    (orig : DataFrame) :
    ∀ (cols : List String) (dfMod d : DataFrame) (cs : List String),
      scaleLoop ext method accept orig dfMod cols = .ok (d, cs) →
      cs = cols.filter accept := by
  intro cols
  induction cols with
  | nil =>
    intro dfMod d cs h
    simp only [scaleLoop, Except.ok.injEq, Prod.mk.injEq] at h
    simp [← h.2]
  | cons c rest ih =>
    intro dfMod d cs h
    unfold scaleLoop at h
    rcases hsc : ext.scaler1 method (orig.col c) with e | ts
    · rw [hsc] at h
      simp at h
    · rw [hsc] at h
      dsimp only at h
      by_cases ha : accept c
      · rw [if_pos ha] at h
        rcases hrec : scaleLoop ext method accept orig (dfMod.setColVals c .float64 ts) rest
          with e | pr
        · rw [hrec] at h
          simp at h
        · rcases pr with ⟨d', cs'⟩
          rw [hrec] at h
          simp only [Except.ok.injEq, Prod.mk.injEq] at h
          have hcs := ih _ _ _ hrec
          simp [List.filter_cons, ha, ← h.2, hcs]
      · rw [if_neg ha] at h
        have := ih _ _ _ h
        simp [List.filter_cons, ha, this]

theorem imputeColClick_history (st : PState) (method ct : String) (c : String) :
    (imputeColClick st method ct c).1.history = st.history := by
  unfold imputeColClick
  repeat' split
  all_goals rfl

theorem imputeColsClick_history (method ct : String) :
    ∀ (st : PState) (cols : List String),
      (imputeColsClick method ct st cols).1.history = st.history := by
  intro st cols
  induction cols generalizing st with
  | nil => rfl
  | cons c rest ih =>
    unfold imputeColsClick
    rcases h : imputeColClick st method ct c with ⟨st', err⟩
    have hh : st'.history = st.history := by
      have := imputeColClick_history st method ct c
      rw [h] at this
      exact this
    cases err with
    | none => simpa [hh] using (hh ▸ ih st')
    | some e => simpa using hh

/-- C4 amended.  Every committed interactive call appends exactly one
Operation Record for the whole call: scaling logs the accepted numeric
subset; outlier capping logs all processed numeric columns (rejected caps
included); imputation — KNN included — logs the full selection (skipped
non-numeric columns included); binning logs the numeric subset; ordinal
encoding logs the selection and target encoding the selection minus the
target column. -/
theorem C4_logging_one_record_per_call :
    (∀ (ext : Oracles) (sel : List String) (method : String) (accept : String → Bool)
        (st st' : PState),
        apply_scaling_click ext sel method accept st = (st', Outcome.committed) →
        st'.history = st.history ++
          [{ name := "apply_scaling",
             columns := some ((st.df.numericSubset sel).filter accept),
             method := some method }])
    ∧ (∀ (ext : Oracles) (sel : List String) (method : String) (t : ℚ)
        (accept : String → Bool) (cr : Bool) (st st' : PState),
        handle_outliers_click ext sel method "Cap/Winsorize" t accept cr st
          = (st', Outcome.committed) →
        st'.history = st.history ++
          [{ name := "handle_outliers", columns := some (st.df.numericSubset sel),
             method := some method, threshold := some t,
             action := some "Cap/Winsorize" }])
    ∧ (∀ (ext : Oracles) (sel : List String) (method ct : String) (k : Nat) (st st' : PState),
        method ≠ "KNN Imputation" →
        apply_imputation_click ext sel method ct k st = (st', Outcome.committed) →
        st'.history = st.history ++
          [{ name := "apply_imputation", columns := some sel, method := some method,
             constant_value := if method = "Fill with Constant" then some ct else none }])
    ∧ (∀ (ext : Oracles) (sel : List String) (ct : String) (k : Nat) (st st' : PState),
        apply_imputation_click ext sel "KNN Imputation" ct k st = (st', Outcome.committed) →
        st'.history = st.history ++
          [{ name := "apply_imputation", columns := some sel,
             method := some "KNN Imputation", k_value := some k }])
    ∧ (∀ (ext : Oracles) (sel : List String) (n : Nat) (strat : String) (st st' : PState),
        apply_binning_click ext sel n strat st = (st', Outcome.committed) →
        st'.history = st.history ++
          [{ name := "apply_binning", columns := some (st.df.numericSubset sel),
             n_bins := some n, strategy := some strat }])
    ∧ (∀ (ext : Oracles) (sel : List String) (st st' : PState),
        apply_encoding_click ext sel "OrdinalEncoder" st = (st', Outcome.committed) →
        st'.history = st.history ++
          [{ name := "apply_encoding", columns := some sel,
             method := some "OrdinalEncoder" }])
    ∧ (∀ (ext : Oracles) (sel : List String) (tn : String) (st st' : PState),
        st.target = some tn →
        apply_encoding_click ext sel "TargetEncoder" st = (st', Outcome.committed) →
        st'.history = st.history ++
          [{ name := "apply_encoding",
             columns := some (if sel.contains tn then sel.erase tn else sel),
             method := some "TargetEncoder" }]) := by
  refine ⟨?_, ?_, ?_, ?_, ?_, ?_, ?_⟩
  · intro ext sel method accept st st' h
    unfold apply_scaling_click at h
    dsimp only at h
    repeat' split at h
    all_goals injection h with h1 h2
    all_goals try exact absurd h2 (by decide)
    all_goals rw [← h1]
    rename_i heq hne
    simp [scaleLoop_changed ext method accept st.df _ _ _ _ heq]
  · intro ext sel method t accept cr st st' h
    unfold handle_outliers_click at h
    dsimp only at h
    repeat' split at h
    all_goals injection h with h1 h2
    all_goals try exact absurd h2 (by decide)
    all_goals rw [← h1]
  · intro ext sel method ct k st st' hne h
    unfold apply_imputation_click at h
    dsimp only at h
    repeat' split at h
    all_goals injection h with h1 h2
    all_goals try exact absurd h2 (by decide)
    all_goals rw [← h1]
    all_goals rename_i st2 heq hc
    all_goals
      (have hh := imputeColsClick_history method ct st sel
       rw [heq] at hh
       dsimp only at hh
       simp [hh, hc])
  · intro ext sel ct k st st' h
    unfold apply_imputation_click at h
    dsimp only at h
    repeat' split at h
    all_goals try exact absurd rfl (by assumption)
    all_goals injection h with h1 h2
    all_goals try exact absurd h2 (by decide)
    all_goals rw [← h1]
  · intro ext sel n strat st st' h
    unfold apply_binning_click at h
    dsimp only at h
    repeat' split at h
    all_goals injection h with h1 h2
    all_goals try exact absurd h2 (by decide)
    all_goals rw [← h1]
  · intro ext sel st st' h
    unfold apply_encoding_click at h
    dsimp only at h
    repeat' split at h
    all_goals try (exfalso; simp_all; done)
    all_goals injection h with h1 h2
    all_goals rw [← h1]
  · intro ext sel tn st st' ht h
    unfold apply_encoding_click at h
    dsimp only at h
    rw [ht] at h
    repeat' split at h
    all_goals try (exfalso; simp_all; done)
    all_goals injection h with h1 h2
    all_goals rw [← h1]
    all_goals simp_all

/-- C4 witness: concrete committed calls — scaling over `[a, b]` with only
`a` accepted logs one record listing `[a]`; a remove-rows imputation logs
one record with the full selection; binning logs one record with the
numeric subset. -/
theorem C4_logging_one_record_per_call_witness :
    (apply_scaling_click trivialOracles ["a", "b"] "StandardScaler" (fun c => c == "a")
        { df := dfAB, history := [] }).1.history
      = [{ name := "apply_scaling", columns := some ["a"], method := some "StandardScaler" }]
    ∧ (apply_imputation_click trivialOracles ["a"] "Remove Rows with Missing Values" "" 5
        { df := dfAB, history := [] }).1.history
      = [{ name := "apply_imputation", columns := some ["a"],
           method := some "Remove Rows with Missing Values" }]
    ∧ (apply_binning_click trivialOracles ["a"] 5 "quantile"
        { df := dfAB, history := [] }).1.history
      = [{ name := "apply_binning", columns := some ["a"], n_bins := some 5,
           strategy := some "quantile" }] := by
  refine ⟨?_, ?_, ?_⟩
  · have h := C4_logging_one_record_per_call.1 trivialOracles ["a", "b"] "StandardScaler"
      (fun c => c == "a") { df := dfAB, history := [] }
      (apply_scaling_click trivialOracles ["a", "b"] "StandardScaler" (fun c => c == "a")
        { df := dfAB, history := [] }).1 (by decide)
    rw [h]
    decide
  · have h := C4_logging_one_record_per_call.2.2.1 trivialOracles ["a"]
      "Remove Rows with Missing Values" "" 5 { df := dfAB, history := [] }
      (apply_imputation_click trivialOracles ["a"] "Remove Rows with Missing Values" "" 5
        { df := dfAB, history := [] }).1 (by decide) (by decide)
    rw [h]
    decide
  · have h := C4_logging_one_record_per_call.2.2.2.2.1 trivialOracles ["a"] 5 "quantile"
      { df := dfAB, history := [] }
      (apply_binning_click trivialOracles ["a"] 5 "quantile"
        { df := dfAB, history := [] }).1 (by decide)
    rw [h]
    decide

/-! ### Helper lemmas: outlier bounds -/

theorem varQ_nonneg (vs : List Value) (v : ℚ) (hv : varQ? vs = some v) : 0 ≤ v := by
  unfold varQ? at hv
  by_cases hl : (numsOf vs).length ≤ 1
  · simp [hl] at hv
  · simp only [hl, if_false, Option.some.injEq] at hv
    subst hv
    apply div_nonneg
    · exact List.sum_nonneg (fun x hx => by
        obtain ⟨y, -, hy⟩ := List.mem_map.mp hx
        exact hy ▸ sq_nonneg _)
    · have : (2 : ℚ) ≤ (numsOf vs).length := by exact_mod_cast (by omega : 2 ≤ (numsOf vs).length)
      linarith

theorem varQ_length (vs : List Value) (v : ℚ) (hv : varQ? vs = some v) :
    2 ≤ (numsOf vs).length := by
  unfold varQ? at hv
  by_cases hl : (numsOf vs).length ≤ 1
  · simp [hl] at hv
  · omega

/-- The Z-score mask, defined by a rational comparison, agrees with the
source's `x < μ − t·σ ∨ x > μ + t·σ` bound test over the reals. -/
theorem zscoreMask_iff_bounds (vs : List Value) (t x μ v : ℚ)
    (hv : varQ? vs = some v) (hm : meanQ? vs = some μ) :
    (zscoreMask vs t x = true ↔
      ((x : ℝ) < (μ : ℝ) - (t : ℝ) * Real.sqrt (v : ℝ)
        ∨ (x : ℝ) > (μ : ℝ) + (t : ℝ) * Real.sqrt (v : ℝ))) := by
  have hlen := varQ_length vs v hv
  have hv0 : (0 : ℚ) ≤ v := varQ_nonneg vs v hv
  have hμ : (numsOf vs).sum / ((numsOf vs).length : ℚ) = μ := by
    unfold meanQ? at hm
    have : ¬((numsOf vs).length = 0) := by omega
    simpa [this] using hm
  have hσ0 : (0 : ℝ) ≤ Real.sqrt (v : ℝ) := Real.sqrt_nonneg _
  have hσsq : Real.sqrt (v : ℝ) ^ 2 = (v : ℝ) := Real.sq_sqrt (by exact_mod_cast hv0)
  unfold zscoreMask
  rw [hv]
  simp only [hμ]
  by_cases hneg : t < 0 ∧ 0 < v
  · have hsp : (0 : ℝ) < Real.sqrt (v : ℝ) :=
      Real.sqrt_pos.mpr (by exact_mod_cast hneg.2)
    have htσ : (t : ℝ) * Real.sqrt (v : ℝ) < 0 :=
      mul_neg_of_neg_of_pos (by exact_mod_cast hneg.1) hsp
    have hd : (t < 0 && decide (0 < v)) = true := by
      simp [hneg.1, hneg.2]
    constructor
    · intro _
      by_contra hcon
      push_neg at hcon
      nlinarith [hcon.1, hcon.2]
    · intro _
      simp [hneg.1, hneg.2]
  · have hb : (0 : ℝ) ≤ (t : ℝ) * Real.sqrt (v : ℝ) := by
      rcases (by tauto : ¬(t < 0) ∨ ¬(0 < v)) with ht | hvz
      · exact mul_nonneg (by exact_mod_cast not_lt.mp ht) hσ0
      · have : v = 0 := le_antisymm (not_lt.mp hvz) hv0
        simp [this]
    have hcond : ¬((decide (t < 0) && decide (0 < v)) = true) := by
      simp only [Bool.and_eq_true, decide_eq_true_eq]
      exact fun hc => hneg hc
    rw [if_neg hcond, decide_eq_true_eq]
    constructor
    · intro hgt
      have hgtR : ((t : ℝ) * Real.sqrt v) ^ 2 < ((x : ℝ) - (μ : ℝ)) ^ 2 := by
        have hc : ((t : ℝ)) ^ 2 * (v : ℝ) < ((x : ℝ) - (μ : ℝ)) ^ 2 := by exact_mod_cast hgt
        calc ((t : ℝ) * Real.sqrt v) ^ 2 = (t : ℝ) ^ 2 * Real.sqrt (v : ℝ) ^ 2 := by ring
          _ = (t : ℝ) ^ 2 * (v : ℝ) := by rw [hσsq]
          _ < _ := hc
      have habs : (t : ℝ) * Real.sqrt v < |(x : ℝ) - (μ : ℝ)| := by
        refine lt_of_pow_lt_pow_left₀ 2 (abs_nonneg _) ?_
        rwa [sq_abs]
      rcases lt_abs.mp habs with h | h
      · right
        show (x : ℝ) > (μ : ℝ) + (t : ℝ) * Real.sqrt (v : ℝ)
        linarith
      · left
        show (x : ℝ) < (μ : ℝ) - (t : ℝ) * Real.sqrt (v : ℝ)
        linarith
    · intro hor
      have habs : (t : ℝ) * Real.sqrt v < |(x : ℝ) - (μ : ℝ)| := by
        rcases hor with h | h
        · calc (t : ℝ) * Real.sqrt v < (μ : ℝ) - (x : ℝ) := by linarith
            _ ≤ |(x : ℝ) - (μ : ℝ)| := by
                rw [abs_sub_comm]
                exact le_abs_self _
        · calc (t : ℝ) * Real.sqrt v < (x : ℝ) - (μ : ℝ) := by linarith
            _ ≤ |(x : ℝ) - (μ : ℝ)| := le_abs_self _
      have hpow : ((t : ℝ) * Real.sqrt v) ^ 2 < ((x : ℝ) - (μ : ℝ)) ^ 2 := by
        rw [← sq_abs ((x : ℝ) - (μ : ℝ))]
        exact pow_lt_pow_left₀ habs hb (by norm_num)
      have hfin : (t : ℝ) ^ 2 * (v : ℝ) < ((x : ℝ) - (μ : ℝ)) ^ 2 := by
        calc (t : ℝ) ^ 2 * (v : ℝ) = ((t : ℝ) * Real.sqrt v) ^ 2 := by
              rw [mul_pow, hσsq]
          _ < _ := hpow
      exact_mod_cast hfin

/-- Membership in `total_outlier_indices` is membership in some processed
column's outlier set — the union semantics of the one-pass removal. -/
theorem totalOutlierIndices_mem (df : DataFrame) (cols : List String) (method : String)
    (t : ℚ) (l : Nat) :
    l ∈ totalOutlierIndices df cols method t ↔
      ∃ c ∈ cols, l ∈ outlierLabels df c method t := by
  induction cols with
  | nil => simp [totalOutlierIndices]
  | cons c rest ih =>
    simp only [totalOutlierIndices, List.foldr_cons] at *
    simp [List.mem_append, ih]

/-- The IQR outlier mask is exactly the documented bound test
`x < Q1 − t·IQR ∨ x > Q3 + t·IQR`. -/
theorem outlierMask_iqr_iff (df : DataFrame) (c : String) (t q1 q3 x : ℚ) (v : Value)
    (h1 : quantileQ? (df.col c) (1/4) = some q1)
    (h3 : quantileQ? (df.col c) (3/4) = some q3)
    (hx : ratOf? v = some x) :
    (outlierMaskVal df c "IQR" t v = true ↔
      (x < q1 - t * (q3 - q1) ∨ x > q3 + t * (q3 - q1))) := by
  unfold outlierMaskVal
  rw [hx]
  rw [show (1/4 : ℚ) = 4⁻¹ from one_div 4] at h1
  simp [iqrBounds?, h1, h3]

/-- C5.  For a committed `Remove Rows` outlier call: (a) the surviving rows
are exactly the original rows whose label is outside the union of the
per-column outlier label sets — one filter pass over the original (pre-cap)
dataframe — relabeled afterwards; (b) the union is across the processed
numeric columns; (c) the IQR mask is the bound test `[Q1−t·IQR, Q3+t·IQR]`;
(d) the Z-score mask is the bound test `[μ−t·σ, μ+t·σ]` over ℝ; and (e) on
`[1,2,3,4,5,100]` with `k = 1.5`: Q1 = 2.25, Q3 = 4.75 and only the row
holding 100 is flagged. -/
theorem C5_outlier_remove_rows_union :
    (∀ (ext : Oracles) (sel : List String) (method : String) (t : ℚ)
        (accept : String → Bool) (st st' : PState),
        handle_outliers_click ext sel method "Remove Rows" t accept true st
          = (st', Outcome.committed) →
        st'.df.rows = ((st.df.rows.filter (fun r =>
            !((totalOutlierIndices st.df (st.df.numericSubset sel) method t).contains
              r.1))).map Prod.snd).enum
        ∧ st'.df.colNames = st.df.colNames)
    ∧ (∀ (df : DataFrame) (cols : List String) (method : String) (t : ℚ) (l : Nat),
        l ∈ totalOutlierIndices df cols method t ↔
          ∃ c ∈ cols, l ∈ outlierLabels df c method t)
    ∧ (∀ (df : DataFrame) (c : String) (t q1 q3 x : ℚ) (v : Value),
        quantileQ? (df.col c) (1/4) = some q1 →
        quantileQ? (df.col c) (3/4) = some q3 →
        ratOf? v = some x →
        (outlierMaskVal df c "IQR" t v = true ↔
          (x < q1 - t * (q3 - q1) ∨ x > q3 + t * (q3 - q1))))
    ∧ (∀ (vs : List Value) (t x μ v : ℚ),
        varQ? vs = some v → meanQ? vs = some μ →
        (zscoreMask vs t x = true ↔
          ((x : ℝ) < (μ : ℝ) - (t : ℝ) * Real.sqrt (v : ℝ)
            ∨ (x : ℝ) > (μ : ℝ) + (t : ℝ) * Real.sqrt (v : ℝ))))
    ∧ (quantileQ? (df6.col "x") (1/4) = some (9/4)
        ∧ quantileQ? (df6.col "x") (3/4) = some (19/4)
        ∧ totalOutlierIndices df6 ["x"] "IQR" (3/2) = [5]) := by
  refine ⟨?_, totalOutlierIndices_mem, outlierMask_iqr_iff, zscoreMask_iff_bounds, ?_, ?_, ?_⟩
  · intro ext sel method t accept st st' h
    unfold handle_outliers_click at h
    dsimp only at h
    repeat' split at h
    all_goals try exact absurd rfl (by assumption)
    all_goals injection h with h1 h2
    all_goals try exact absurd h2 (by decide)
    all_goals rw [← h1]
    exact ⟨rfl, rfl⟩
  · simp [quantileQ?, numsOf, df6, DataFrame.col, DataFrame.colIdx?, DataFrame.cellAt,
      List.findIdx?, ratOf?, List.insertionSort, List.orderedInsert]
    norm_num [Int.floor_eq_iff]
  · simp [quantileQ?, numsOf, df6, DataFrame.col, DataFrame.colIdx?, DataFrame.cellAt,
      List.findIdx?, ratOf?, List.insertionSort, List.orderedInsert]
    norm_num [Int.floor_eq_iff]
    simp
    norm_num
  · simp [totalOutlierIndices, outlierLabels, outlierMaskVal, iqrBounds?, quantileQ?, numsOf,
      df6, DataFrame.col, DataFrame.colIdx?, DataFrame.cellAt, List.findIdx?, ratOf?,
      List.insertionSort, List.orderedInsert, List.filter_cons, List.filter_nil]
    norm_num [Int.floor_eq_iff]
    simp
    norm_num

/-- C5 witness: the committed removal on `df6 = [1,2,3,4,5,100]` with
`k = 1.5` keeps exactly the first five rows, relabeled `0..4`; the IQR mask
instantiated at the value 100 with Q1 = 9/4, Q3 = 19/4. -/
theorem C5_outlier_remove_rows_union_witness :
    (handle_outliers_click trivialOracles ["x"] "IQR" "Remove Rows" (3/2) (fun _ => true) true
        { df := df6, history := [] }).1.df.rows
      = [(0, [Value.i 1]), (1, [Value.i 2]), (2, [Value.i 3]), (3, [Value.i 4]),
         (4, [Value.i 5])]
    ∧ (outlierMaskVal df6 "x" "IQR" (3/2) (Value.i 100) = true
        ↔ ((100 : ℚ) < 9/4 - (3/2) * (19/4 - 9/4)
            ∨ (100 : ℚ) > 19/4 + (3/2) * (19/4 - 9/4))) := by
  have hq := C5_outlier_remove_rows_union.2.2.2.2
  constructor
  · have H : handle_outliers_click trivialOracles ["x"] "IQR" "Remove Rows" (3/2)
        (fun _ => true) true { df := df6, history := [] }
        = ((handle_outliers_click trivialOracles ["x"] "IQR" "Remove Rows" (3/2)
            (fun _ => true) true { df := df6, history := [] }).1, Outcome.committed) := by
      simp [handle_outliers_click, DataFrame.numericSubset, DataFrame.isNumericCol,
        DataFrame.dtypeOf, DataFrame.hasCol, DataFrame.colIdx?, List.findIdx?, df6,
        totalOutlierIndices, outlierLabels, outlierMaskVal, iqrBounds?, quantileQ?, numsOf,
        ratOf?, DataFrame.col, DataFrame.cellAt, List.insertionSort, List.orderedInsert,
        DataFrame.dropIndexLabels, DataFrame.reset_index, List.filter_cons, List.filter_nil]
      try norm_num [Int.floor_eq_iff]
      try simp
      try norm_num
    have hc := C5_outlier_remove_rows_union.1 trivialOracles ["x"] "IQR" (3/2)
      (fun _ => true) { df := df6, history := [] } _ H
    have hdf : ({ df := df6, history := [], target := none } : PState).df = df6 := rfl
    have hns : df6.numericSubset ["x"] = ["x"] := by decide
    rw [hc.1]
    simp only [hdf, hns, hq.2.2]
    decide
  · exact C5_outlier_remove_rows_union.2.2.1 df6 "x" (3/2) (9/4) (19/4) 100 (Value.i 100)
      hq.1 hq.2.1 (by norm_num [ratOf?])
